/-
Verification of the sherry-sync daemon's change-propagation engine.

Shallow embedding of the Rust sources:
  src/hash.rs                 (get_file_hash, hash index records)
  src/event/file_event.rs     (minify_results, resolve_event_pair, optimize_events,
                               filter_events, complete_events)
  src/event/event_processing.rs (process_result)
  src/watchers.rs             (fetch_watcher_files classification)
  src/auth.rs                 (revalidate_auth)
  src/constants.rs            (EXPIRATION_THRESHOLD)

External collaborators (the HTTP client, the OS file system, the glob crate,
the seahash crate, the wall clock) are modelled as explicit oracle parameters;
Rust HashMaps are modelled as duplicate-free association lists iterated in
insertion order, which realises one admissible iteration order of the map.
-/
import Mathlib

set_option linter.unusedVariables false

/-! ## Association-list primitives (model of Rust HashMap operations) -/

/-- `HashMap::get`: first value bound to `k`. -/
def alookup {α : Type} (k : String) : List (String × α) → Option α
  | [] => none
  | (k', v) :: rest => if k' = k then some v else alookup k rest

/-- `HashMap::insert`: replace the binding in place if the key exists, else append. -/
def aupsert {α : Type} (k : String) (v : α) : List (String × α) → List (String × α)
  | [] => [(k, v)]
  | (k', v') :: rest => if k' = k then (k, v) :: rest else (k', v') :: aupsert k v rest

/-- `HashMap::remove` (value dropped): delete the binding for `k`. -/
def aremove {α : Type} (k : String) : List (String × α) → List (String × α)
  | [] => []
  | (k', v') :: rest => if k' = k then rest else (k', v') :: aremove k rest

theorem alookup_nil {α : Type} (k : String) : alookup (α := α) k [] = none := rfl

theorem alookup_cons {α : Type} (k k' : String) (v : α) (rest : List (String × α)) :
    alookup k ((k', v) :: rest) = if k' = k then some v else alookup k rest := rfl

/-! ## Stable sorting by timestamp (model of Rust's stable `sort_by`) -/

/-- Stable insertion of `x` into a sorted list: `x` goes before the first element
it does not compare greater than, so equal keys keep their input order. -/
def sortInsert {α : Type} (le : α → α → Bool) (x : α) : List α → List α
  | [] => [x]
  | y :: ys => if le x y then x :: y :: ys else y :: sortInsert le x ys

/-- Stable sort (model of `Vec::sort_by` with a total comparator). -/
def sortBy {α : Type} (le : α → α → Bool) : List α → List α
  | [] => []
  | x :: xs => sortInsert le x (sortBy le xs)

/-! ## src/hash.rs -/

/-- One hash-index record: `FileHashJSON { hash, timestamp, size }`. -/
structure FileHashJSON where
  hash : String
  timestamp : Int
  size : Nat
deriving DecidableEq, Repr

/-- One per-watcher hash index: `WatcherHashJSON`. The `hashes` HashMap is an
association list keyed by normalized local path. -/
structure WatcherHashJSON where
  id : String
  source_id : String
  local_path : String
  hashes : List (String × FileHashJSON)
deriving DecidableEq, Repr

/-- Semantic equality of two `hashes` maps, as Rust's `HashMap::eq` decides it:
every binding of each side is found identically in the other. -/
def mapEquiv (m1 m2 : List (String × FileHashJSON)) : Bool :=
  m1.all (fun kv => decide (alookup kv.1 m2 = some kv.2)) &&
  m2.all (fun kv => decide (alookup kv.1 m1 = some kv.2))

/-- Rust `PartialEq` on `WatcherHashJSON`: field-wise, with HashMap semantics
on the `hashes` field. -/
def whEq (a b : WatcherHashJSON) : Bool :=
  decide (a.id = b.id) && decide (a.source_id = b.source_id) &&
  decide (a.local_path = b.local_path) && mapEquiv a.hashes b.hashes

/-- The external file system as `get_file_hash` observes it: `path.is_dir()`
and `tokio::fs::read`, whose failure is `none`. File contents are byte lists. -/
structure Fs where
  isDir : String → Bool
  readFile : String → Option (List Nat)

/-- Decimal digit list of a natural number, most significant first
(model of Rust's `u64::to_string`, which prints base-10 digits). -/
def natDecimalList (n : Nat) : List Char :=
  if h : n < 10 then [Nat.digitChar n]
  else natDecimalList (n / 10) ++ [Nat.digitChar (n % 10)]
decreasing_by exact Nat.div_lt_self (by omega) (by omega)

/-- Decimal string of a natural number (`u64::to_string`). -/
def natDecimal (n : Nat) : String := ⟨natDecimalList n⟩

theorem natDecimalList_ne_nil (n : Nat) : natDecimalList n ≠ [] := by
  unfold natDecimalList
  split
  · simp
  · simp

theorem natDecimal_ne_empty (n : Nat) : natDecimal n ≠ "" := by
  have h := natDecimalList_ne_nil n
  simp only [natDecimal]
  intro hc
  exact h (by simpa using congrArg String.data hc)

/-- `get_file_hash` (src/hash.rs lines 32-44): empty string for a directory or a
failed read, decimal seahash of the contents otherwise.  `sea` is the external
`seahash::hash` function over the file's bytes. -/
def get_file_hash (sea : List Nat → Nat) (fs : Fs) (path : String) : String :=
  if fs.isDir path then ""
  else
    match fs.readFile path with
    | some content => natDecimal (sea content)
    | none => ""

/-- C10: `get_file_hash` is total by construction (it returns a `String` for every
input and signals no error); its result is `""` exactly when the path is a
directory or the read fails, and the decimal seahash of the contents otherwise,
so an unreadable file is indistinguishable from a tombstone at this interface. -/
theorem get_file_hash_total_spec (sea : List Nat → Nat) (fs : Fs) (p : String) :
    (get_file_hash sea fs p = "" ↔ (fs.isDir p = true ∨ fs.readFile p = none)) ∧
    (∀ c, fs.isDir p = false → fs.readFile p = some c →
      get_file_hash sea fs p = natDecimal (sea c)) := by
  constructor
  · unfold get_file_hash
    split
    · simp [*]
    · rename_i hdir
      cases hr : fs.readFile p with
      | some c =>
        simp only [hr]
        constructor
        · intro hc
          exact absurd hc (natDecimal_ne_empty _)
        · intro hor
          rcases hor with h | h
          · exact absurd h (by simpa using hdir)
          · exact absurd h (by simp [hr])
      | none => simp [hr, hdir]
  · intro c hdir hread
    unfold get_file_hash
    simp [hdir, hread]

/-- C10 witness: the specification evaluated on a concrete file system holding
one readable file and one directory. -/
theorem get_file_hash_total_spec_witness :
    get_file_hash (fun _ => 7) ⟨fun p => decide (p = "d"), fun p => if p = "f" then some [1, 2] else none⟩ "f"
      = natDecimal 7 := by
  exact (get_file_hash_total_spec (fun _ => 7)
    ⟨fun p => decide (p = "d"), fun p => if p = "f" then some [1, 2] else none⟩ "f").2
    [1, 2] (by decide) (by decide)

/-! ## src/config.rs and src/auth.rs data model -/

/-- `AccessRights` (src/config.rs). -/
inductive AccessRights
  | Read
  | Write
  | Owner
deriving DecidableEq, Repr

/-- `SherryConfigSourceJSON` (the fields the engine reads). -/
structure SherryConfigSourceJSON where
  id : String
  access : AccessRights
  user_id : String
  max_file_size : Nat
  allow_dir : Bool
  allowed_file_names : List String
deriving DecidableEq, Repr

/-- `SherryConfigWatcherJSON`. -/
structure SherryConfigWatcherJSON where
  source : String
  local_path : String
  hashes_id : String
  user_id : String
  complete : Bool
deriving DecidableEq, Repr

/-- `SherryConfigJSON` (the fields the engine reads); `sources` is the
`userId@folderId → Source` HashMap. -/
structure SherryConfigJSON where
  api_url : String
  sources : List (String × SherryConfigSourceJSON)
  watchers : List SherryConfigWatcherJSON
deriving DecidableEq, Repr

/-- `Credentials` (src/auth.rs). -/
structure Credentials where
  user_id : String
  email : String
  username : String
  access_token : String
  refresh_token : String
  expires_in : Nat
  expired : Bool
deriving DecidableEq, Repr

/-- `SherryAuthorizationConfigJSON` (src/auth.rs). -/
structure SherryAuthorizationConfigJSON where
  dflt : String
  records : List (String × Credentials)
deriving DecidableEq, Repr

/-! ## Raw OS events and the coalescer `minify_results` (src/event/file_event.rs) -/

/-- `notify::event::RenameMode`. -/
inductive RenameMode
  | FromSide
  | ToSide
  | Both
  | AnyMode
  | OtherMode
deriving DecidableEq, Repr

/-- `notify::event::ModifyKind` (the `Data` payload collapsed: the coalescer
only ever writes `Data(Any)` and never inspects it). -/
inductive ModifyKind
  | NameKind (mode : RenameMode)
  | DataKind
  | MetadataKind
  | AnyKind
  | OtherKind
deriving DecidableEq, Repr

/-- `notify::EventKind` (the constructors `minify_results` distinguishes). -/
inductive EventKind
  | Create
  | Modify (k : ModifyKind)
  | Remove
  | AccessKind
  | AnyKind
  | OtherKind
deriving DecidableEq, Repr

/-- `notify::Event`: kind, paths (1 or 2 entries) and an opaque `attrs` payload. -/
structure NotifyEvent where
  kind : EventKind
  paths : List String
  attrs : Nat
deriving DecidableEq, Repr

/-- `notify_debouncer_full::DebouncedEvent`: an event with its arrival instant. -/
structure DebouncedEvent where
  event : NotifyEvent
  time : Nat
deriving DecidableEq, Repr

/-- `BasedDebounceEvent` (src/event/event_processing.rs): a debounced event
tagged with the watcher base it was observed under. -/
structure BasedDebounceEvent where
  event : DebouncedEvent
  base : String
deriving DecidableEq, Repr

/-- `result_cmp`: events ordered by debounce time. -/
def resultLe (a b : BasedDebounceEvent) : Bool :=
  a.event.time ≤ b.event.time

/-- First path of a raw event (`paths.first().unwrap()`; notify events always
carry at least one path). -/
def pathsFirst (e : NotifyEvent) : String := e.paths.headD ""

/-- Last path of a raw event (`paths.last().unwrap()`). -/
def pathsLast (e : NotifyEvent) : String := e.paths.getLastD ""

/-- Loop body of `minify_results` (src/event/file_event.rs lines 83-143) at
index `i`: `sorted` is the whole time-sorted batch (consulted at `i + 1` for
rename pairing), `newResults` the output accumulator and `removeMap` the
pending-`Remove` map keyed by first path. -/
def minifyStep (sorted : List BasedDebounceEvent)
    (st : List BasedDebounceEvent × List (String × BasedDebounceEvent))
    (i : Nat) (result : BasedDebounceEvent) :
    List BasedDebounceEvent × List (String × BasedDebounceEvent) :=
  let newResults := st.1
  let removeMap := st.2
  match result.event.event.kind with
  | EventKind.Modify modifyKind =>
    let newResults :=
      match modifyKind with
      | ModifyKind.NameKind RenameMode.FromSide =>
        match sorted.get? (i + 1) with
        | some toEvt =>
          let ev : NotifyEvent :=
            { kind := EventKind.Modify (ModifyKind.NameKind RenameMode.Both),
              paths := [pathsFirst result.event.event, pathsFirst toEvt.event.event],
              attrs := toEvt.event.event.attrs }
          newResults ++ [{ event := { event := ev, time := toEvt.event.time }, base := result.base }]
        | none => newResults
      | ModifyKind.NameKind RenameMode.Both => newResults ++ [result]
      | ModifyKind.NameKind _ => newResults
      | _ => newResults ++ [result]
    -- "If Modify event go after Remove, the remove is lie, so we skipping it"
    (newResults, aremove (pathsLast result.event.event) removeMap)
  | EventKind.Remove =>
    (newResults, aupsert (pathsFirst result.event.event) result removeMap)
  | EventKind.Create =>
    match alookup (pathsFirst result.event.event) removeMap with
    | none => (newResults ++ [result], removeMap)
    | some _ =>
      let ev : NotifyEvent :=
        { kind := EventKind.Modify ModifyKind.DataKind,
          paths := result.event.event.paths,
          attrs := result.event.event.attrs }
      (newResults ++ [{ event := { event := ev, time := result.event.time }, base := result.base }],
       removeMap)
  | _ => (newResults, removeMap)

/-- Enumerated fold over the sorted batch. -/
def minifyFold (sorted : List BasedDebounceEvent)
    (st : List BasedDebounceEvent × List (String × BasedDebounceEvent))
    (i : Nat) : List BasedDebounceEvent → List BasedDebounceEvent × List (String × BasedDebounceEvent)
  | [] => st
  | r :: rest => minifyFold sorted (minifyStep sorted st i r) (i + 1) rest

/-- `minify_results` (src/event/file_event.rs lines 77-148): sort by time,
rewrite rename pairs / save-replace patterns in one pass, append the still
pending removes, and sort by time again. -/
def minify_results (results : List BasedDebounceEvent) : List BasedDebounceEvent :=
  let sorted := sortBy resultLe results
  let st := minifyFold sorted ([], []) 0 sorted
  sortBy resultLe (st.1 ++ st.2.map (fun kv => kv.2))

/-! ## SyncEvents and the optimizer (src/event/file_event.rs) -/

/-- `SyncEventKind` (src/event/file_event.rs lines 22-28). -/
inductive SyncEventKind
  | Created
  | Updated
  | Moved
  | Deleted
deriving DecidableEq, Repr

/-- `FileType`. -/
inductive FileType
  | Dir
  | File
deriving DecidableEq, Repr

/-- `SyncEvent` (src/event/file_event.rs lines 49-62); paths are strings,
`timestamp` is the i128 millisecond clock. -/
structure SyncEvent where
  source_id : String
  base : String
  file_type : FileType
  kind : SyncEventKind
  local_path : String
  old_local_path : String
  sync_path : String
  old_sync_path : String
  update_hash : String
  size : Nat
  timestamp : Int
deriving DecidableEq, Repr

/-- `resolve_event_pair` (src/event/file_event.rs lines 360-451): the pairwise
rewrite table over adjacent events of one file lifetime. -/
def resolve_event_pair (a b : SyncEvent) : List SyncEvent :=
  match a.kind with
  | SyncEventKind.Deleted => [b]
  | SyncEventKind.Created =>
    match b.kind with
    | SyncEventKind.Created | SyncEventKind.Updated =>
      [{ b with kind := SyncEventKind.Created }]
    | SyncEventKind.Deleted => [b]
    | SyncEventKind.Moved =>
      [{ b with kind := SyncEventKind.Created, old_sync_path := b.sync_path,
                update_hash := a.update_hash, size := a.size }]
  | SyncEventKind.Updated =>
    match b.kind with
    | SyncEventKind.Created | SyncEventKind.Updated =>
      [{ b with kind := SyncEventKind.Updated }]
    | SyncEventKind.Deleted => [b]
    | SyncEventKind.Moved =>
      [{ a with kind := SyncEventKind.Deleted },
       { b with kind := SyncEventKind.Created, update_hash := a.update_hash, size := a.size }]
  | SyncEventKind.Moved =>
    match b.kind with
    | SyncEventKind.Created | SyncEventKind.Updated =>
      [{ a with kind := SyncEventKind.Deleted, sync_path := a.old_sync_path },
       { b with kind := SyncEventKind.Created, update_hash := a.update_hash, size := a.size }]
    | SyncEventKind.Deleted =>
      [{ a with kind := SyncEventKind.Deleted, sync_path := a.old_sync_path }, b]
    | SyncEventKind.Moved =>
      if a.old_sync_path = b.sync_path then []
      else [{ b with old_sync_path := a.old_sync_path }]

theorem resolve_event_pair_length_le (a b : SyncEvent) :
    (resolve_event_pair a b).length ≤ 2 := by
  unfold resolve_event_pair
  cases a.kind <;> cases b.kind <;> simp <;> split <;> simp

/-- `event_time_cmp` as a total ≤ for the stable sort. -/
def syncLe (a b : SyncEvent) : Bool := a.timestamp ≤ b.timestamp

/-- `FileLifetime` (src/event/file_event.rs lines 353-357). -/
structure FileLifetime where
  events : List SyncEvent
  next : Option String
deriving DecidableEq, Repr

/-- Lifetime-map accumulation (src/event/file_event.rs lines 459-469):
`entry(old_sync_path).or_insert(empty)`, push the event, and on a `Moved`
record the follow-up path. -/
def addLifetimeEvent (m : List (String × FileLifetime)) (e : SyncEvent) :
    List (String × FileLifetime) :=
  let upd := fun (lt : FileLifetime) =>
    let lt := { lt with events := lt.events ++ [e] }
    if e.kind = SyncEventKind.Moved then { lt with next := some e.sync_path } else lt
  match alookup e.old_sync_path m with
  | some lt => aupsert e.old_sync_path (upd lt) m
  | none => m ++ [(e.old_sync_path, upd { events := [], next := none })]

/-- Key ordering (src/event/file_event.rs lines 471-478): keys that some other
lifetime points at go to the back, chain heads to the front. -/
def fileKeys (m : List (String × FileLifetime)) : List String :=
  m.foldl
    (fun acc kv =>
      if m.any (fun kv' => kv'.2.next = some kv.1) then acc ++ [kv.1] else kv.1 :: acc)
    []

/-- Chain walk (src/event/file_event.rs lines 484-493): remove the entry, collect
its events, follow `next` until it dangles.  `fuel` bounds the walk by the map
size; every successful step removes one entry, so the fuel never runs out
before the Rust loop would stop. -/
def collectChain (fuel : Nat) (m : List (String × FileLifetime)) (next : Option String)
    (acc : List SyncEvent) : List (String × FileLifetime) × List SyncEvent :=
  match fuel, next with
  | 0, _ => (m, acc)
  | _, none => (m, acc)
  | fuel' + 1, some k =>
    match alookup k m with
    | none => (m, acc)
    | some lt => collectChain fuel' (aremove k m) lt.next (acc ++ lt.events)

/-- Inner rewrite pass (src/event/file_event.rs lines 497-510), fuelled: scan
from `start`, rewrite the adjacent pair, re-insert the result, and advance only
when the pair did not shrink.  Each iteration strictly decreases
`events.length - start` (`rewriteFromFuel_step` below), so fuel equal to that
measure makes this exactly the Rust while-loop. -/
def rewriteFromFuel : Nat → List SyncEvent → Nat → List SyncEvent
  | 0, events, _ => events
  | fuel + 1, events, start =>
    if h : start + 1 < events.length then
      let res := resolve_event_pair events[start] events[start + 1]
      let events' := events.take start ++ res ++ events.drop (start + 2)
      if res.length > 1 then rewriteFromFuel fuel events' (start + (res.length - 1))
      else rewriteFromFuel fuel events' start
    else events

/-- The inner rewrite pass with its exact fuel budget. -/
def rewriteFrom (events : List SyncEvent) (start : Nat) : List SyncEvent :=
  rewriteFromFuel (events.length - start) events start

theorem rewriteFromFuel_step (fuel : Nat) :
    ∀ events start, events.length - start ≤ fuel →
      rewriteFromFuel (fuel + 1) events start = rewriteFromFuel fuel events start := by
  induction fuel with
  | zero =>
    intro events start hle
    have hnot : ¬(start + 1 < events.length) := by omega
    simp [rewriteFromFuel, hnot]
  | succ g IH =>
    intro events start hle
    by_cases hc : start + 1 < events.length
    · have hlen : ∀ res : List SyncEvent,
          (events.take start ++ res ++ events.drop (start + 2)).length
            = start + res.length + (events.length - (start + 2)) := by
        intro res
        simp only [List.length_append, List.length_take, List.length_drop]
        omega
      have hres := resolve_event_pair_length_le events[start] events[start + 1]
      rw [rewriteFromFuel, rewriteFromFuel, dif_pos hc, dif_pos hc]
      by_cases hgt : (resolve_event_pair events[start] events[start + 1]).length > 1
      · simp only [if_pos hgt]
        exact IH _ _ (by rw [hlen]; omega)
      · simp only [if_neg hgt]
        exact IH _ _ (by rw [hlen]; omega)
    · rw [rewriteFromFuel, rewriteFromFuel, dif_neg hc, dif_neg hc]

/-- Any fuel at or above the loop measure computes `rewriteFrom`. -/
theorem rewriteFromFuel_stable (events : List SyncEvent) (start : Nat) :
    ∀ fuel, events.length - start ≤ fuel →
      rewriteFromFuel fuel events start = rewriteFrom events start := by
  intro fuel
  induction fuel with
  | zero =>
    intro hle
    rw [rewriteFrom, Nat.le_zero.mp hle]
  | succ g IH =>
    intro hle
    rcases Nat.lt_or_ge g (events.length - start) with hlt | hge
    · have : events.length - start = g + 1 := by omega
      rw [rewriteFrom, this]
    · rw [rewriteFromFuel_step g events start hge]
      exact IH hge

/-- Outer fixed-point loop (src/event/file_event.rs lines 495-513), fuelled:
repeat the rewrite pass while the event count keeps decreasing.  The count
strictly decreases on every recursive call, so fuel `count + 1` makes this
exactly the Rust loop. -/
def optimizeLoopFuel : Nat → List SyncEvent → Nat → List SyncEvent
  | 0, events, _ => events
  | fuel + 1, events, count =>
    if count ≤ (rewriteFrom events 0).length then rewriteFrom events 0
    else optimizeLoopFuel fuel (rewriteFrom events 0) (rewriteFrom events 0).length

/-- The outer loop with its exact fuel budget. -/
def optimizeLoop (events : List SyncEvent) (count : Nat) : List SyncEvent :=
  optimizeLoopFuel (count + 1) events count

theorem optimizeLoopFuel_step (fuel : Nat) :
    ∀ events count, count + 1 ≤ fuel →
      optimizeLoopFuel (fuel + 1) events count = optimizeLoopFuel fuel events count := by
  induction fuel with
  | zero =>
    intro events count hle
    omega
  | succ g IH =>
    intro events count hle
    conv_lhs => rw [optimizeLoopFuel]
    conv_rhs => rw [optimizeLoopFuel]
    by_cases hc : count ≤ (rewriteFrom events 0).length
    · simp only [if_pos hc]
    · simp only [if_neg hc]
      exact IH _ _ (by omega)

/-- `optimize_events` (src/event/file_event.rs lines 457-518): group events into
file-lifetime chains, sort each chain by timestamp, and reduce it with the
pairwise rewriter until a fixed point. -/
def optimize_events (events : List SyncEvent) : List SyncEvent :=
  let m := events.foldl addLifetimeEvent []
  let keys := fileKeys m
  (keys.foldl
    (fun (st : List (String × FileLifetime) × List SyncEvent) key =>
      match alookup key st.1 with
      | none => st
      | some _ =>
        let walked := collectChain st.1.length st.1 (some key) []
        let chain := sortBy syncLe walked.2
        (walked.1, st.2 ++ optimizeLoop chain chain.length))
    (m, [])).2

/-! ## Event filter and completion (src/event/file_event.rs lines 520-563) -/

/-- `std::fs::Metadata` as the filter observes it. -/
structure Metadata where
  len : Nat
  isDir : Bool
deriving DecidableEq, Repr

/-- Outcome of one REST call: transport error (`Err`) or a response with its
HTTP status (`Ok`). -/
inductive ReqResult
  | failure
  | ok (status : Nat)
deriving DecidableEq, Repr

/-- `PATH_SEP` (src/helpers.rs line 29). -/
def PATH_SEP : Char := '/'

/-- External collaborators of the per-source pipeline: glob compilation and
matching (the `glob` crate), `Path::metadata`, the file system and seahash for
`complete_events`, `get_sync_events` (whole-disk dependent), the hash-index
store, the REST client (`check_file` / `send_file`), and the clock. -/
structure ProcEnv where
  compileOk : String → Bool
  globMatch : String → String → Bool
  stat : String → Option Metadata
  sea : List Nat → Nat
  fs : Fs
  getSyncEvents : SherryConfigSourceJSON → SherryConfigWatcherJSON → BasedDebounceEvent → List SyncEvent
  getHashes : String → String → WatcherHashJSON
  checkFile : SyncEvent → ReqResult
  sendFile : SyncEvent → ReqResult
  nowMillis : Int

/-- `filter_events` (src/event/file_event.rs lines 520-554): drop nested paths
when `allow_dir` is off, drop glob misses, pass `Deleted` unconditionally, then
stat the file, drop stat failures and oversize files, and annotate the size. -/
def filter_events (env : ProcEnv) (config : SherryConfigSourceJSON)
    (events : List SyncEvent) : List SyncEvent :=
  let globs := config.allowed_file_names.filter env.compileOk
  events.filterMap fun e =>
    if !config.allow_dir && e.sync_path.contains PATH_SEP then none
    else if !globs.isEmpty && !globs.any (fun p => env.globMatch p e.sync_path) then none
    else if e.kind = SyncEventKind.Deleted then some e
    else
      match env.stat e.local_path with
      | none => none
      | some metadata =>
        if metadata.len > config.max_file_size then none
        else some { e with size := if metadata.isDir then 0 else metadata.len }

/-- `complete_events` (src/event/file_event.rs lines 556-563): stamp each event
with the current content hash of its local path. -/
def complete_events (env : ProcEnv) (events : List SyncEvent) : List SyncEvent :=
  events.map fun e => { e with update_hash := get_file_hash env.sea env.fs e.local_path }

/-! ## The per-source transport loop (src/event/event_processing.rs lines 21-136) -/

/-- Observable side effects of one `process_result` run: hash-index file loads
(`get_hashes`), `check_file` (verify) calls, `send_file` calls, and hash-index
file writes (`update_hashes`). -/
inductive SyncAction
  | loadHashes (base : String)
  | verify (e : SyncEvent)
  | send (e : SyncEvent)
  | writeHashes (base : String)
deriving DecidableEq, Repr

/-- State threaded through the event loop: the per-base cache of loaded
indexes (`hashes_map`), the per-base working copies (`updated_hashes`), and
the emitted actions. -/
structure LoopState where
  hashesMap : List (String × WatcherHashJSON)
  updatedHashes : List (String × WatcherHashJSON)
  trace : List SyncAction
deriving Repr

/-- The skip test (src/event/event_processing.rs lines 81-88): the loaded index
already holds this event's hash at its local path. -/
def shouldSkip (hashes : WatcherHashJSON) (e : SyncEvent) : Bool :=
  match alookup e.local_path hashes.hashes with
  | some h => decide (h.hash = e.update_hash)
  | none => false

/-- The working-copy mutation (src/event/event_processing.rs lines 91-103). -/
def applyEventUpdate (now : Int) (e : SyncEvent) (h : WatcherHashJSON) : WatcherHashJSON :=
  match e.kind with
  | SyncEventKind.Deleted =>
    let tomb : FileHashJSON := { hash := "", timestamp := now, size := 0 }
    { h with hashes := aupsert e.local_path tomb (aremove e.local_path h.hashes) }
  | SyncEventKind.Moved =>
    let entry : FileHashJSON := { hash := e.update_hash, timestamp := now, size := e.size }
    { h with hashes := aupsert e.local_path entry (aremove e.old_local_path h.hashes) }
  | _ =>
    let entry : FileHashJSON := { hash := e.update_hash, timestamp := now, size := e.size }
    { h with hashes := aupsert e.local_path entry h.hashes }

/-- One iteration of the event loop (src/event/event_processing.rs lines 63-130):
resolve the watcher, load (and cache) the index, skip unchanged hashes, update
the working copy, verify, and send only on verify status 200.  The send result
is only logged, so a failed send leaves the working copy as updated. -/
def stepEvent (env : ProcEnv) (watchers : List (String × SherryConfigWatcherJSON))
    (st : LoopState) (e : SyncEvent) : LoopState :=
  match alookup e.base watchers with
  | none => st
  | some watcher =>
    let loaded :=
      match alookup e.base st.hashesMap with
      | some v => (st, v)
      | none =>
        let h := env.getHashes e.base watcher.hashes_id
        ({ st with hashesMap := st.hashesMap ++ [(e.base, h)],
                   trace := st.trace ++ [SyncAction.loadHashes e.base] }, h)
    let st1 := loaded.1
    let hashes := loaded.2
    if shouldSkip hashes e then st1
    else
      let working := (alookup e.base st1.updatedHashes).getD hashes
      let working := applyEventUpdate env.nowMillis e working
      let st2 := { st1 with updatedHashes := aupsert e.base working st1.updatedHashes,
                            trace := st1.trace ++ [SyncAction.verify e] }
      match env.checkFile e with
      | ReqResult.ok 200 => { st2 with trace := st2.trace ++ [SyncAction.send e] }
      | _ => st2

/-- The commit step (src/event/event_processing.rs lines 131-135): write back
each base whose working copy differs (Rust `PartialEq`) from the loaded index.
The `none` lookup branch is unreachable: every key of `updated_hashes` was
first inserted into `hashes_map`. -/
def commitHashes (st : LoopState) : List SyncAction :=
  st.updatedHashes.filterMap fun kv =>
    match alookup kv.1 st.hashesMap with
    | some orig => if whEq orig kv.2 then none else some (SyncAction.writeHashes kv.1)
    | none => none

/-- The event loop plus commit (src/event/event_processing.rs lines 61-135). -/
def processEvents (env : ProcEnv) (watchers : List (String × SherryConfigWatcherJSON))
    (events : List SyncEvent) : List SyncAction :=
  let st := events.foldl (stepEvent env watchers) { hashesMap := [], updatedHashes := [], trace := [] }
  st.trace ++ commitHashes st

/-- `process_result` (src/event/event_processing.rs lines 21-136): look up the
source, refuse read-only sources, run coalesce → optimize → filter → complete,
then the transport loop and the index commit.  Returns the emitted actions. -/
def process_result (env : ProcEnv) (config : SherryConfigJSON) (source_id : String)
    (results : List BasedDebounceEvent) : List SyncAction :=
  match alookup source_id config.sources with
  | none => []
  | some source =>
    let watchers := config.watchers.filterMap fun w =>
      if w.source = source_id then some (w.local_path, w) else none
    if source.access = AccessRights.Read then []
    else
      let events := ((minify_results results).filterMap fun e =>
        match alookup e.base watchers with
        | some watcher => some (env.getSyncEvents source watcher e)
        | none => none).flatten
      let events := optimize_events events
      let events := filter_events env source events
      let events := complete_events env events
      processEvents env watchers events

/-! ## Reconciliation classification (src/watchers.rs lines 39-67) -/

/-- `ApiFileResponse` (src/server/api.rs): one remote listing entry. -/
structure ApiFileResponse where
  path : String
  hash : String
  size : Nat
  updated_at : Int
deriving DecidableEq, Repr

/-- Upload kind attached to a `to_upload` entry (`SyncEventKind::Update` or
`::Create` in the divergent watcher-side enum). -/
inductive UploadKind
  | CreateKind
  | UpdateKind
deriving DecidableEq, Repr

/-- The four work lists built by the `fetch_watcher_files` sweep, plus the
remote entries not yet matched by a local path. -/
structure ReconPlan where
  toDownload : List (String × String × ApiFileResponse)
  toDelete : List (String × String × ApiFileResponse)
  toUpload : List (String × String × FileHashJSON × UploadKind)
  toSyncDeletes : List String
  remoteLeft : List ApiFileResponse
deriving DecidableEq, Repr

/-- `Vec::swap_remove(i)`: move the last element into slot `i`, pop the last. -/
def swapRemove {α : Type} (l : List α) (i : Nat) : List α :=
  match l.getLast? with
  | none => l
  | some last => if i + 1 = l.length then l.dropLast else (l.dropLast).set i last

/-- The both-sides branch of the sweep (src/watchers.rs lines 43-56), entered
after `swap_remove` already extracted `remote`: equal hashes are skipped, a
strictly newer remote wins (download), otherwise the local side wins — an
empty remote hash means delete locally, any other means upload an Update. -/
def classifyBoth (localPath syncPath : String) (hash : FileHashJSON)
    (remote : ApiFileResponse) (plan : ReconPlan) (rest : List ApiFileResponse) : ReconPlan :=
  if remote.hash = hash.hash then { plan with remoteLeft := rest }
  else if remote.updated_at > hash.timestamp then
    { plan with toDownload := plan.toDownload ++ [(localPath, syncPath, remote)],
                remoteLeft := rest }
  else if remote.hash = "" then
    { plan with toDelete := plan.toDelete ++ [(localPath, syncPath, remote)],
                remoteLeft := rest }
  else
    { plan with toUpload := plan.toUpload ++ [(localPath, syncPath, hash, UploadKind.UpdateKind)],
                remoteLeft := rest }

/-- The local-only branch of the sweep (src/watchers.rs lines 57-63): a
tombstone becomes a remote delete (`to_sync`), anything else an upload Create.
`normalize` is `normalize_path`, applied to the tombstone's local path. -/
def classifyLocalOnly (normalize : String → String) (localPath syncPath : String)
    (hash : FileHashJSON) (plan : ReconPlan) : ReconPlan :=
  if hash.hash = "" then
    { plan with toSyncDeletes := plan.toSyncDeletes ++ [normalize localPath] }
  else
    { plan with toUpload := plan.toUpload ++ [(localPath, syncPath, hash, UploadKind.CreateKind)] }

/-- The classification loop of `fetch_watcher_files` (src/watchers.rs lines
39-67): walk the local hash index, match each path against the remote listing
by sync path (extracting matches with `swap_remove`), and finally mark every
unmatched remote entry for download.  `syncOf` is `get_sync_path` against the
watcher base. -/
def classifyFiles (normalize syncOf : String → String)
    (localHashes : List (String × FileHashJSON)) (remote : List ApiFileResponse) : ReconPlan :=
  let plan := localHashes.foldl
    (fun (plan : ReconPlan) kv =>
      let localPath := kv.1
      let hash := kv.2
      let syncPath := syncOf localPath
      match plan.remoteLeft.findIdx? (fun f => f.path = syncPath) with
      | some idx =>
        match plan.remoteLeft.get? idx with
        | some r => classifyBoth localPath syncPath hash r plan (swapRemove plan.remoteLeft idx)
        | none => plan
      | none => classifyLocalOnly normalize localPath syncPath hash plan)
    { toDownload := [], toDelete := [], toUpload := [], toSyncDeletes := [], remoteLeft := remote }
  { plan with
      toDownload := plan.toDownload ++ plan.remoteLeft.map (fun r => (r.path, r.path, r)),
      remoteLeft := [] }

/-! ## Auth revalidation (src/auth.rs lines 69-129, src/constants.rs line 13) -/

/-- `EXPIRATION_THRESHOLD` (src/constants.rs line 13): one week in seconds. -/
def EXPIRATION_THRESHOLD : Int := 604800

/-- Wrap an integer into the i32 value range (two's complement). -/
def wrap32 (z : Int) : Int := (z + 2 ^ 31) % 2 ^ 32 - 2 ^ 31

/-- Rust `u64 as i32` (truncating cast). -/
def u64ToI32 (n : Nat) : Int := wrap32 n

/-- Rust i32 subtraction (wrapping, as in release builds). -/
def i32Sub (a b : Int) : Int := wrap32 (a - b)

/-- `ApiAuthResponse` (src/server/api.rs lines 15-24). -/
structure ApiAuthResponse where
  user_id : String
  email : String
  username : String
  access_token : String
  refresh_token : String
  expires_in : Nat
deriving DecidableEq, Repr

/-- `response_to_user` (src/auth.rs lines 49-59): accept the server's triple,
clearing `expired`. -/
def response_to_user (response : ApiAuthResponse) : Credentials :=
  { user_id := response.user_id, email := response.email, username := response.username,
    access_token := response.access_token, refresh_token := response.refresh_token,
    expires_in := response.expires_in, expired := false }

/-- The per-record refresh step of `revalidate_auth` (src/auth.rs lines 84-97).
`refresh` is the `POST /auth/refresh` oracle (`none` = request failed).
Returns the resulting record and whether the refresh endpoint was called. -/
def revalidateUser (now : Int) (refresh : Credentials → Option ApiAuthResponse)
    (user : Credentials) : Credentials × Bool :=
  if user.expired then (user, false)
  else
    let user_expiration := u64ToI32 user.expires_in
    if user_expiration < now then ({ user with expired := true }, false)
    else if i32Sub user_expiration EXPIRATION_THRESHOLD ≤ now then
      match refresh user with
      | none => ({ user with expired := true }, true)
      | some v => (response_to_user v, true)
    else (user, false)

/-- `RevalidateAuthMeta` (src/auth.rs lines 61-67). -/
structure RevalidateAuthMeta where
  new_users : List Credentials
  deleted_users : List Credentials
  valid_users : List Credentials
  updated_users : List Credentials
  invalid_users : List Credentials
deriving DecidableEq, Repr

/-- `revalidate_auth` (src/auth.rs lines 69-129): reset a dangling default,
refresh or expire each record via `revalidateUser`, classify records against
`old`, and fold the updated users back into the document.  The last component
lists the record keys for which `POST /auth/refresh` was called. -/
def revalidate_auth (now : Int) (refresh : Credentials → Option ApiAuthResponse)
    (new old : SherryAuthorizationConfigJSON) :
    SherryAuthorizationConfigJSON × RevalidateAuthMeta × List String :=
  let auth := new
  let auth :=
    if (auth.records.find? (fun kv => kv.2.user_id = auth.dflt)).isNone then
      { auth with dflt := "" }
    else auth
  let folded := auth.records.foldl
    (fun (st : RevalidateAuthMeta × List String) kv =>
      let key := kv.1
      let stepped := revalidateUser now refresh kv.2
      let user := stepped.1
      let calls := if stepped.2 then st.2 ++ [key] else st.2
      let meta := st.1
      let meta :=
        match alookup key old.records with
        | some oldUser =>
          if user ≠ oldUser then { meta with updated_users := meta.updated_users ++ [user] }
          else { meta with valid_users := meta.valid_users ++ [user] }
        | none => { meta with new_users := meta.new_users ++ [user] }
      (meta, calls))
    ({ new_users := [], deleted_users := [], valid_users := [], updated_users := [],
       invalid_users := [] }, [])
  let meta := folded.1
  let meta := old.records.foldl
    (fun m kv =>
      if (alookup kv.1 auth.records).isNone then
        { m with deleted_users := m.deleted_users ++ [kv.2] }
      else m)
    meta
  let records := meta.updated_users.foldl
    (fun recs user => aupsert user.user_id user recs) auth.records
  ({ auth with records := records }, meta, folded.2)

/-! ## Shared concrete fixtures for witnesses and counterexamples -/

/-- A local index entry and a remote listing entry with different hashes and
equal timestamps (the reconciliation tie case). -/
def tieLocalEntry : FileHashJSON := { hash := "h1", timestamp := 100, size := 1 }

def tieRemoteEntry : ApiFileResponse := { path := "p", hash := "h2", size := 1, updated_at := 100 }

def emptyPlan : ReconPlan :=
  { toDownload := [], toDelete := [], toUpload := [], toSyncDeletes := [], remoteLeft := [] }

/-! ## C1 — last-writer-wins in the reconciliation sweep -/

/-- C1 counterexample: with equal timestamps and differing hashes the sweep
classifies the path as an upload, not a download — the claim's "tie prefers
remote (the file is downloaded, not uploaded)" fails on the code. -/
theorem c1_recon_tie_counterexample :
    tieRemoteEntry.hash ≠ tieLocalEntry.hash ∧
    tieRemoteEntry.updated_at = tieLocalEntry.timestamp ∧
    (classifyFiles id id [("p", tieLocalEntry)] [tieRemoteEntry]).toDownload = [] ∧
    (classifyFiles id id [("p", tieLocalEntry)] [tieRemoteEntry]).toUpload
      = [("p", "p", tieLocalEntry, UploadKind.UpdateKind)] := by
  decide

/-- C1 amended: for a path present on both sides with differing hashes, the
remote side wins only when `remote.updatedAt` is strictly greater than the
local index timestamp (download); otherwise — the tie included — the local
side wins: upload an Update when the remote hash is non-empty, delete the
local file when the remote hash is the empty tombstone. -/
theorem c1_recon_lww_amended (localPath syncPath : String) (hash : FileHashJSON)
    (remote : ApiFileResponse) (plan : ReconPlan) (rest : List ApiFileResponse)
    (hne : remote.hash ≠ hash.hash) :
    (remote.updated_at > hash.timestamp →
      classifyBoth localPath syncPath hash remote plan rest
        = { plan with toDownload := plan.toDownload ++ [(localPath, syncPath, remote)],
                      remoteLeft := rest }) ∧
    (remote.updated_at ≤ hash.timestamp → remote.hash ≠ "" →
      classifyBoth localPath syncPath hash remote plan rest
        = { plan with toUpload := plan.toUpload ++ [(localPath, syncPath, hash, UploadKind.UpdateKind)],
                      remoteLeft := rest }) ∧
    (remote.updated_at ≤ hash.timestamp → remote.hash = "" →
      classifyBoth localPath syncPath hash remote plan rest
        = { plan with toDelete := plan.toDelete ++ [(localPath, syncPath, remote)],
                      remoteLeft := rest }) := by
  refine ⟨fun h1 => ?_, fun h1 h2 => ?_, fun h1 h2 => ?_⟩
  · simp [classifyBoth, hne, h1]
  · simp [classifyBoth, hne, h2, show ¬(remote.updated_at > hash.timestamp) from not_lt.mpr h1]
  · rw [h2] at hne
    simp [classifyBoth, hne, h2, show ¬(remote.updated_at > hash.timestamp) from not_lt.mpr h1]

/-- C1 witness: the amended statement evaluated at the concrete tie fixture. -/
theorem c1_recon_lww_amended_witness :
    classifyBoth "p" "p" tieLocalEntry tieRemoteEntry emptyPlan []
      = { emptyPlan with
            toUpload := emptyPlan.toUpload ++ [("p", "p", tieLocalEntry, UploadKind.UpdateKind)],
            remoteLeft := [] } :=
  (c1_recon_lww_amended "p" "p" tieLocalEntry tieRemoteEntry emptyPlan [] (by decide)).2.1
    (by decide) (by decide)

/-! ## C4 — Created then Deleted at one path -/

def evCreatedP : SyncEvent :=
  { source_id := "s", base := "b", file_type := FileType.File, kind := SyncEventKind.Created,
    local_path := "bp", old_local_path := "bp", sync_path := "p", old_sync_path := "p",
    update_hash := "h", size := 1, timestamp := 1 }

def evDeletedP : SyncEvent :=
  { evCreatedP with kind := SyncEventKind.Deleted, update_hash := "", size := 0, timestamp := 2 }

/-- C4 counterexample: `Created(p)` followed by `Deleted(p)` is NOT reduced to
the empty event set — the optimizer's `Created × Deleted` rewrite keeps the
`Deleted` event (`resolve_event_pair` returns `[b]`). -/
theorem c4_create_delete_counterexample :
    optimize_events [evCreatedP, evDeletedP] = [evDeletedP] ∧
    optimize_events [evCreatedP, evDeletedP] ≠ [] := by
  decide

/-- C4 amended: a `Created(p)` followed (within the same flush) by a
`Deleted(p)` is reduced by the optimizer to exactly the single `Deleted`
event, per the pair-rewrite row Created × Deleted → [Deleted]; the event set
is not empty. -/
theorem c4_create_delete_amended (e1 e2 : SyncEvent)
    (h1 : e1.kind = SyncEventKind.Created) (h2 : e2.kind = SyncEventKind.Deleted)
    (hk : e1.old_sync_path = e2.old_sync_path) (ht : e1.timestamp ≤ e2.timestamp) :
    optimize_events [e1, e2] = [e2] := by
  simp [optimize_events, addLifetimeEvent, alookup, aupsert, aremove, fileKeys, collectChain,
    sortBy, sortInsert, syncLe, optimizeLoop, optimizeLoopFuel, rewriteFrom, rewriteFromFuel,
    resolve_event_pair, h1, h2, hk, ht]

/-- C4 witness: the amended reduction evaluated at the concrete pair. -/
theorem c4_create_delete_amended_witness :
    optimize_events [evCreatedP, evDeletedP] = [evDeletedP] :=
  c4_create_delete_amended evCreatedP evDeletedP (by decide) (by decide) (by decide) (by decide)

/-! ## C5 — a rename cycle cancels -/

def evMovedAB : SyncEvent :=
  { source_id := "s", base := "b", file_type := FileType.File, kind := SyncEventKind.Moved,
    local_path := "bB", old_local_path := "bA", sync_path := "B", old_sync_path := "A",
    update_hash := "", size := 0, timestamp := 1 }

def evMovedBA : SyncEvent :=
  { evMovedAB with
      local_path := "bA",
      old_local_path := "bB",
      sync_path := "A",
      old_sync_path := "B",
      timestamp := 2 }

/-- C5: for distinct sync paths `a ≠ b`, `Moved(a→b)` followed by `Moved(b→a)`
is reduced by the optimizer to the empty event set, so the transport loop run
on the optimized batch (after filtering and completion) performs no calls. -/
theorem c5_rename_cycle_cancels (e1 e2 : SyncEvent)
    (h1 : e1.kind = SyncEventKind.Moved) (h2 : e2.kind = SyncEventKind.Moved)
    (hb : e2.old_sync_path = e1.sync_path) (ha : e2.sync_path = e1.old_sync_path)
    (hne : e1.old_sync_path ≠ e1.sync_path) (ht : e1.timestamp ≤ e2.timestamp) :
    optimize_events [e1, e2] = [] ∧
    (∀ env watchers source,
      processEvents env watchers
        (complete_events env (filter_events env source (optimize_events [e1, e2]))) = []) := by
  have hmain : optimize_events [e1, e2] = [] := by
    simp [optimize_events, addLifetimeEvent, alookup, aupsert, aremove, fileKeys, collectChain,
      sortBy, sortInsert, syncLe, optimizeLoop, optimizeLoopFuel, rewriteFrom, rewriteFromFuel,
      resolve_event_pair, h1, h2, hb, ha, hne, ht, Ne.symm hne]
  refine ⟨hmain, fun env watchers source => ?_⟩
  rw [hmain]
  simp [filter_events, complete_events, processEvents, commitHashes]

/-- C5 witness: the cancellation evaluated at a concrete rename cycle. -/
theorem c5_rename_cycle_cancels_witness :
    optimize_events [evMovedAB, evMovedBA] = [] :=
  (c5_rename_cycle_cancels evMovedAB evMovedBA (by decide) (by decide) (by decide) (by decide)
    (by decide) (by decide)).1

/-! ## C6 — Remove then Create in the coalescer -/

def rawRemoveP : BasedDebounceEvent :=
  { event := { event := { kind := EventKind.Remove, paths := ["p"], attrs := 3 }, time := 1 },
    base := "B" }

def rawCreateP : BasedDebounceEvent :=
  { event := { event := { kind := EventKind.Create, paths := ["p"], attrs := 4 }, time := 2 },
    base := "B" }

def rawModifyP : BasedDebounceEvent :=
  { event := { event := { kind := EventKind.Modify ModifyKind.DataKind, paths := ["p"], attrs := 4 },
               time := 2 },
    base := "B" }

/-- C6 counterexample: in the batch `[Remove(p), Create(p)]` the Create is
rewritten to `Modify(Data)`, but the earlier Remove IS also emitted (the
Create branch never clears the pending-remove map), so the result is not the
single Modify event the claim describes. -/
theorem c6_remove_create_counterexample :
    minify_results [rawRemoveP, rawCreateP] = [rawRemoveP, rawModifyP] ∧
    rawRemoveP ∈ minify_results [rawRemoveP, rawCreateP] := by
  decide

/-- C6 amended: a `Create(p)` preceded in the batch by a `Remove(p)` is
rewritten into a `Modify(Data)` event carrying the Create's paths, attrs and
timestamp, but the earlier Remove is still emitted from the pending-remove map
(only a later raw `Modify` at `p` would drop it): on the two-event batch the
output is the Remove followed by the rewritten Modify. -/
theorem c6_remove_create_amended (p base : String) (a1 a2 t1 t2 : Nat) (ht : t1 < t2) :
    minify_results
      [{ event := { event := { kind := EventKind.Remove, paths := [p], attrs := a1 }, time := t1 },
         base := base },
       { event := { event := { kind := EventKind.Create, paths := [p], attrs := a2 }, time := t2 },
         base := base }]
      = [{ event := { event := { kind := EventKind.Remove, paths := [p], attrs := a1 }, time := t1 },
           base := base },
         { event := { event := { kind := EventKind.Modify ModifyKind.DataKind, paths := [p],
                                 attrs := a2 }, time := t2 },
           base := base }] := by
  simp [minify_results, sortBy, sortInsert, resultLe, minifyFold, minifyStep, pathsFirst,
    pathsLast, alookup, aupsert, aremove, Nat.le_of_lt ht, Nat.not_le.mpr ht]

/-- C6 witness: the amended statement evaluated at the concrete batch. -/
theorem c6_remove_create_amended_witness :
    minify_results [rawRemoveP, rawCreateP] = [rawRemoveP, rawModifyP] :=
  c6_remove_create_amended "p" "B" 3 4 1 2 (by decide)

/-! ## C7 — token refresh threshold -/

def credPast : Credentials :=
  { user_id := "u", email := "e", username := "n", access_token := "a",
    refresh_token := "r", expires_in := 999, expired := false }

def authPast : SherryAuthorizationConfigJSON := { dflt := "u", records := [("u", credPast)] }

def respFresh : ApiAuthResponse :=
  { user_id := "u", email := "e", username := "n", access_token := "a2",
    refresh_token := "r2", expires_in := 99999 }

/-- C7 counterexample: a record with `expired = false` whose expiry is already
in the past satisfies `expiry − now ≤ threshold`, yet `revalidate_auth` calls
no refresh for it (the call list is empty) and only marks it `expired = true`. -/
theorem c7_refresh_threshold_counterexample :
    credPast.expired = false ∧
    u64ToI32 credPast.expires_in - 1000 ≤ EXPIRATION_THRESHOLD ∧
    (revalidate_auth 1000 (fun _ => some respFresh) authPast authPast).2.2 = [] ∧
    alookup "u" (revalidate_auth 1000 (fun _ => some respFresh) authPast authPast).1.records
      = some { credPast with expired := true } := by
  decide

/-- C7 amended: a record with `expired = false` is handled in three bands: an
expiry already below `now` is marked `expired = true` with NO refresh call;
an expiry in `[now, now]`-to-threshold range (`expiry − threshold ≤ now`, i32
arithmetic) triggers the refresh call, whose success replaces the full triple
(`expired = false`) and whose failure marks `expired = true`; a farther expiry
leaves the record untouched. -/
theorem c7_refresh_threshold_amended (now : Int)
    (refresh : Credentials → Option ApiAuthResponse) (user : Credentials)
    (hexp : user.expired = false) :
    (u64ToI32 user.expires_in < now →
      revalidateUser now refresh user = ({ user with expired := true }, false)) ∧
    (now ≤ u64ToI32 user.expires_in →
      i32Sub (u64ToI32 user.expires_in) EXPIRATION_THRESHOLD ≤ now →
      (refresh user = none →
        revalidateUser now refresh user = ({ user with expired := true }, true)) ∧
      (∀ v, refresh user = some v →
        revalidateUser now refresh user = (response_to_user v, true))) ∧
    (now ≤ u64ToI32 user.expires_in →
      ¬(i32Sub (u64ToI32 user.expires_in) EXPIRATION_THRESHOLD ≤ now) →
      revalidateUser now refresh user = (user, false)) := by
  refine ⟨fun h1 => ?_, fun h1 h2 => ⟨fun h3 => ?_, fun v h3 => ?_⟩, fun h1 h2 => ?_⟩
  · simp [revalidateUser, hexp, h1]
  · simp [revalidateUser, hexp, not_lt.mpr h1, h2, h3]
  · simp [revalidateUser, hexp, not_lt.mpr h1, h2, h3]
  · simp [revalidateUser, hexp, not_lt.mpr h1, h2]

/-- C7 witness: the no-call band evaluated at the concrete stale record. -/
theorem c7_refresh_threshold_amended_witness :
    revalidateUser 1000 (fun _ => some respFresh) credPast
      = ({ credPast with expired := true }, false) :=
  (c7_refresh_threshold_amended 1000 (fun _ => some respFresh) credPast (by decide)).1 (by decide)

/-! ## C8 — `max_file_size = 0` filtering -/

def srcZero : SherryConfigSourceJSON :=
  { id := "s", access := AccessRights.Write, user_id := "u", max_file_size := 0,
    allow_dir := true, allowed_file_names := [] }

def emptyIndex : WatcherHashJSON := { id := "", source_id := "", local_path := "", hashes := [] }

def envZero : ProcEnv :=
  { compileOk := fun _ => true,
    globMatch := fun _ _ => true,
    stat := fun _ => some { len := 0, isDir := false },
    sea := fun _ => 0,
    fs := { isDir := fun _ => false, readFile := fun _ => none },
    getSyncEvents := fun _ _ _ => [],
    getHashes := fun _ _ => emptyIndex,
    checkFile := fun _ => ReqResult.ok 200,
    sendFile := fun _ => ReqResult.ok 500,
    nowMillis := 0 }

def evUpd : SyncEvent :=
  { source_id := "s", base := "b", file_type := FileType.File, kind := SyncEventKind.Updated,
    local_path := "f", old_local_path := "f", sync_path := "f", old_sync_path := "f",
    update_hash := "new", size := 1, timestamp := 5 }

/-- C8 counterexample: with `max_file_size = 0` an `Updated` event for a
zero-size file passes the filter — not every non-`Deleted` event is dropped. -/
theorem c8_zero_max_size_counterexample :
    srcZero.max_file_size = 0 ∧ evUpd.kind ≠ SyncEventKind.Deleted ∧
    filter_events envZero srcZero [evUpd] = [{ evUpd with size := 0 }] := by
  decide

/-- C8 amended: with `max_file_size = 0` the filter drops every non-`Deleted`
event whose stat fails or reports a positive length; only `Deleted` events and
events whose file stats to length 0 (annotated with size 0) survive. -/
theorem c8_zero_max_size_amended (env : ProcEnv) (config : SherryConfigSourceJSON)
    (events : List SyncEvent) (hmax : config.max_file_size = 0) :
    ∀ e ∈ filter_events env config events,
      e.kind = SyncEventKind.Deleted ∨
      (∃ md, env.stat e.local_path = some md ∧ md.len = 0 ∧ e.size = 0) := by
  intro e he
  simp only [filter_events, List.mem_filterMap] at he
  obtain ⟨a, ha, heq⟩ := he
  split at heq
  · exact absurd heq (by simp)
  · split at heq
    · exact absurd heq (by simp)
    · split at heq
      · rename_i hdel
        obtain rfl : a = e := by simpa using heq
        exact Or.inl hdel
      · rename_i hnotdel
        split at heq
        · exact absurd heq (by simp)
        · rename_i md hstat
          split at heq
          · exact absurd heq (by simp)
          · rename_i hlen
            rw [hmax] at hlen
            have hlen0 : md.len = 0 := by omega
            obtain rfl : { a with size := if md.isDir then 0 else md.len } = e := by
              simpa using heq
            refine Or.inr ⟨md, ?_, hlen0, ?_⟩
            · simpa using hstat
            · simp [hlen0]
/-- C8 witness: the amended statement evaluated at the zero-size fixture. -/
theorem c8_zero_max_size_amended_witness :
    ({ evUpd with size := 0 }).kind = SyncEventKind.Deleted ∨
    (∃ md, envZero.stat ({ evUpd with size := 0 }).local_path = some md ∧ md.len = 0 ∧
      ({ evUpd with size := 0 }).size = 0) :=
  c8_zero_max_size_amended envZero srcZero [evUpd] (by decide) { evUpd with size := 0 } (by decide)

/-! ## C9 — read-only sources do nothing -/

def wSample : SherryConfigWatcherJSON :=
  { source := "sid", local_path := "b", hashes_id := "hid", user_id := "u", complete := false }

def srcRead : SherryConfigSourceJSON := { srcZero with id := "sid", access := AccessRights.Read }

def cfgRead : SherryConfigJSON :=
  { api_url := "", sources := [("sid", srcRead)], watchers := [wSample] }

/-- C9: when the source bound to the batch has access role `Read`,
`process_result` returns before the coalesce/optimize/filter pipeline: it emits
no action at all — no verify, no send, no hash-index load or write. -/
theorem c9_read_only_no_effects (env : ProcEnv) (config : SherryConfigJSON)
    (source_id : String) (results : List BasedDebounceEvent)
    (source : SherryConfigSourceJSON)
    (hs : alookup source_id config.sources = some source)
    (hread : source.access = AccessRights.Read) :
    process_result env config source_id results = [] := by
  simp [process_result, hs, hread]

/-- C9 witness: a read-only source evaluated on a concrete configuration. -/
theorem c9_read_only_no_effects_witness :
    process_result envZero cfgRead "sid" [] = [] :=
  c9_read_only_no_effects envZero cfgRead "sid" [] srcRead (by decide) (by decide)

/-! ## C2 — send only after a 200 verify -/

/-- Every `send` in the trace follows an adjacent `verify` for the same event,
and the verify oracle answered status 200 for that event. -/
def VerifiedBeforeSend (env : ProcEnv) (trace : List SyncAction) : Prop :=
  ∀ e, SyncAction.send e ∈ trace →
    env.checkFile e = ReqResult.ok 200 ∧
    ∃ l1 l2, trace = l1 ++ SyncAction.verify e :: SyncAction.send e :: l2

theorem vbs_nil (env : ProcEnv) : VerifiedBeforeSend env [] := by
  intro e he
  simp at he

theorem vbs_append (env : ProcEnv) (t d : List SyncAction)
    (ht : VerifiedBeforeSend env t)
    (hd : ∀ e, SyncAction.send e ∈ d →
      env.checkFile e = ReqResult.ok 200 ∧
      ∃ d1 d2, d = d1 ++ SyncAction.verify e :: SyncAction.send e :: d2) :
    VerifiedBeforeSend env (t ++ d) := by
  intro e he
  rcases List.mem_append.mp he with h | h
  · obtain ⟨hc, l1, l2, hdecomp⟩ := ht e h
    exact ⟨hc, l1, l2 ++ d, by rw [hdecomp]; simp⟩
  · obtain ⟨hc, d1, d2, hdecomp⟩ := hd e h
    refine ⟨hc, t ++ d1, d2, ?_⟩
    rw [hdecomp]
    simp

theorem vbs_append_no_send (env : ProcEnv) (t d : List SyncAction)
    (ht : VerifiedBeforeSend env t)
    (hd : ∀ e, SyncAction.send e ∉ d) :
    VerifiedBeforeSend env (t ++ d) :=
  vbs_append env t d ht (fun e he => absurd he (hd e))

theorem stepEvent_vbs (env : ProcEnv) (watchers : List (String × SherryConfigWatcherJSON))
    (st : LoopState) (e : SyncEvent) (h : VerifiedBeforeSend env st.trace) :
    VerifiedBeforeSend env (stepEvent env watchers st e).trace := by
  unfold stepEvent
  cases hw : alookup e.base watchers with
  | none => exact h
  | some w =>
    cases hm : alookup e.base st.hashesMap with
    | some v =>
      simp only
      split
      · exact h
      · split
        · rename_i hcf
          have hgoal : VerifiedBeforeSend env ((st.trace ++ [SyncAction.verify e]) ++ [SyncAction.send e]) := by
            rw [List.append_assoc]
            refine vbs_append env st.trace _ h ?_
            intro e' he'
            simp only [List.singleton_append, List.mem_cons, List.not_mem_nil, or_false] at he'
            rcases he' with h1 | h1
            · cases h1
            · cases h1
              exact ⟨hcf, [], [], rfl⟩
          simpa using hgoal
        · refine vbs_append_no_send env st.trace [SyncAction.verify e] h ?_
          intro e' he'
          simp at he'
    | none =>
      simp only
      split
      · refine vbs_append_no_send env st.trace [SyncAction.loadHashes e.base] h ?_
        intro e' he'
        simp at he'
      · split
        · rename_i hcf
          have hgoal : VerifiedBeforeSend env
              (st.trace ++ [SyncAction.loadHashes e.base, SyncAction.verify e, SyncAction.send e]) := by
            refine vbs_append env st.trace _ h ?_
            intro e' he'
            simp only [List.mem_cons, List.not_mem_nil, or_false] at he'
            rcases he' with h1 | h1 | h1
            · cases h1
            · cases h1
            · cases h1
              exact ⟨hcf, [SyncAction.loadHashes e.base], [], rfl⟩
          simpa using hgoal
        · have hgoal : VerifiedBeforeSend env
              (st.trace ++ [SyncAction.loadHashes e.base, SyncAction.verify e]) := by
            refine vbs_append_no_send env st.trace _ h ?_
            intro e' he'
            simp at he'
          simpa using hgoal

theorem processFold_vbs (env : ProcEnv) (watchers : List (String × SherryConfigWatcherJSON))
    (events : List SyncEvent) :
    ∀ st : LoopState, VerifiedBeforeSend env st.trace →
      VerifiedBeforeSend env (events.foldl (stepEvent env watchers) st).trace := by
  induction events with
  | nil => intro st h; exact h
  | cons e rest IH =>
    intro st h
    exact IH _ (stepEvent_vbs env watchers st e h)

theorem commitHashes_no_send (st : LoopState) (e : SyncEvent) :
    SyncAction.send e ∉ commitHashes st := by
  intro he
  simp only [commitHashes, List.mem_filterMap] at he
  obtain ⟨kv, _, heq⟩ := he
  split at heq
  · split at heq
    · cases heq
    · cases heq
  · cases heq

/-- C2: in the transport loop of `process_result`, `send_file` is emitted for an
event only if `check_file` answered exactly status 200 for that same event, and
the send follows that verify in the trace; a verify error or non-200 status
means the event is never sent. -/
theorem c2_send_requires_verify_ok (env : ProcEnv) (config : SherryConfigJSON)
    (source_id : String) (results : List BasedDebounceEvent) :
    VerifiedBeforeSend env (process_result env config source_id results) := by
  unfold process_result
  split
  · exact vbs_nil env
  · split
    · exact vbs_nil env
    · unfold processEvents
      refine vbs_append_no_send env _ _ ?_ ?_
      · exact processFold_vbs env _ _ _ (vbs_nil env)
      · intro e'
        exact commitHashes_no_send _ e'

def whOldF : WatcherHashJSON :=
  { id := "hid", source_id := "s", local_path := "b",
    hashes := [("f", { hash := "old", timestamp := 0, size := 1 })] }

def wB : SherryConfigWatcherJSON :=
  { source := "s", local_path := "b", hashes_id := "hid", user_id := "u", complete := false }

def srcWrite : SherryConfigSourceJSON := { srcZero with access := AccessRights.Write }

def cfgWrite : SherryConfigJSON :=
  { api_url := "", sources := [("s", srcWrite)], watchers := [wB] }

def evPipe : SyncEvent :=
  { source_id := "s", base := "b", file_type := FileType.File, kind := SyncEventKind.Updated,
    local_path := "f", old_local_path := "f", sync_path := "f", old_sync_path := "f",
    update_hash := "x", size := 1, timestamp := 5 }

def rawPipe : BasedDebounceEvent :=
  { event := { event := { kind := EventKind.Modify ModifyKind.DataKind, paths := ["f"], attrs := 0 },
               time := 1 },
    base := "b" }

def envPipe : ProcEnv :=
  { envZero with
      getSyncEvents := fun _ _ _ => [evPipe],
      getHashes := fun _ _ => whOldF }

/-- The event as it leaves the filter (size annotated) and completion (hash of
a missing file is `""`). -/
def evPipeDone : SyncEvent := { evPipe with size := 0, update_hash := "" }

/-- C2 witness: a full `process_result` run in which a send happens, evaluated
through the theorem at the concrete sent event. -/
theorem c2_send_requires_verify_ok_witness :
    envPipe.checkFile evPipeDone = ReqResult.ok 200 ∧
    ∃ l1 l2, process_result envPipe cfgWrite "s" [rawPipe]
      = l1 ++ SyncAction.verify evPipeDone :: SyncAction.send evPipeDone :: l2 :=
  c2_send_requires_verify_ok envPipe cfgWrite "s" [rawPipe] evPipeDone (by decide)

/-! ## C3 — failed send does not roll back, and the commit still writes -/

def envSendFail : ProcEnv := { envZero with getHashes := fun _ _ => whOldF }

/-- C3 counterexample: one event whose verify passes and whose send returns
status 500 — the loop still records the working-copy update and the commit
still writes that base's hash-index file (`writeHashes "b"`), so a batch whose
every send failed does NOT leave the on-disk index unchanged. -/
theorem c3_failed_send_commit_counterexample :
    envSendFail.sendFile evUpd = ReqResult.ok 500 ∧
    processEvents envSendFail [("b", wB)] [evUpd]
      = [SyncAction.loadHashes "b", SyncAction.verify evUpd, SyncAction.send evUpd,
         SyncAction.writeHashes "b"] := by
  decide

/-- C3 amended: a failed send (error or non-200 after a positive verify) is
only logged — the in-memory working copy keeps the update, there is no
rollback — and the commit gate compares the working copy against the loaded
index, not against server confirmations: a single-event batch whose send fails
still loads, verifies, sends, and then WRITES the base's hash-index file
whenever the updated working copy differs from the loaded index. -/
theorem c3_failed_send_commit_amended (env : ProcEnv)
    (watchers : List (String × SherryConfigWatcherJSON)) (e : SyncEvent)
    (w : SherryConfigWatcherJSON)
    (hw : alookup e.base watchers = some w)
    (hskip : shouldSkip (env.getHashes e.base w.hashes_id) e = false)
    (hcheck : env.checkFile e = ReqResult.ok 200)
    (hsend : env.sendFile e ≠ ReqResult.ok 200)
    (hchanged : whEq (env.getHashes e.base w.hashes_id)
        (applyEventUpdate env.nowMillis e (env.getHashes e.base w.hashes_id)) = false) :
    processEvents env watchers [e]
      = [SyncAction.loadHashes e.base, SyncAction.verify e, SyncAction.send e,
         SyncAction.writeHashes e.base] := by
  simp [processEvents, stepEvent, hw, hskip, hcheck, commitHashes, alookup, aupsert, hchanged]

/-- C3 witness: the amended statement evaluated at the concrete failing-send
scenario. -/
theorem c3_failed_send_commit_amended_witness :
    processEvents envSendFail [("b", wB)] [evUpd]
      = [SyncAction.loadHashes "b", SyncAction.verify evUpd, SyncAction.send evUpd,
         SyncAction.writeHashes "b"] :=
  c3_failed_send_commit_amended envSendFail [("b", wB)] evUpd wB (by decide) (by decide)
    (by decide) (by decide) (by decide)
